import Mathlib

/-!
Verification development for the screenexplainer repository (single source
file `explain.py`, a Streamlit app).  The Python code is shallowly embedded:
strings are `List Char`, Streamlit session state is an explicit `Session`
record, and the three external cloud services (Gemini, Google translate,
gTTS) are oracles supplied as parameters, so that every modelled function is
total and executable.  The definitions below are translated from the source;
line references point into `src/explain.py`.
-/

/-- Characters of a string literal, the representation of Python `str`. -/
def strL (s : String) : List Char := s.data

/-- ASCII whitespace recognised by Python `str.split()` / `str.strip()`
(the source text never contains the rarer Unicode whitespace). -/
def isWs (c : Char) : Bool :=
  c = ' ' || c = '\t' || c = '\n' || c = '\r' || c = '\x0b' || c = '\x0c'

/-- Negation of `isWs`, the predicate keeping word characters. -/
def notWs (c : Char) : Bool := !isWs c

/-- Test `isPre pat l`: does `pat` occur at the very start of `l`
(Python slice-compare used implicitly by `str.replace`). -/
def isPre : List Char → List Char → Bool
  | [], _ => true
  | _ :: _, [] => false
  | a :: as, b :: bs => a == b && isPre as bs

/-- Python `pat in l` substring test, as used by `"Error:" in text`
(explain.py:588, 606): some suffix of `l` starts with `pat`. -/
def hasSub (pat : List Char) : List Char → Bool
  | [] => isPre pat []
  | c :: cs => isPre pat (c :: cs) || hasSub pat cs

/-- Python `str.strip()`: drop whitespace from both ends. -/
def pyStrip (l : List Char) : List Char :=
  ((l.dropWhile isWs).reverse.dropWhile isWs).reverse

/-- Fuelled scanner for Python `str.replace`: replace every left-to-right
non-overlapping occurrence of `pat` by `repl`.  Each step consumes at least
one character, so fuel `l.length` is always enough (the source only ever
calls it with non-empty patterns). -/
def replFuel (pat repl : List Char) : Nat → List Char → List Char
  | _, [] => []
  | 0, l => l
  | n + 1, c :: cs =>
    if isPre pat (c :: cs) then
      repl ++ replFuel pat repl n (List.drop (pat.length - 1) cs)
    else
      c :: replFuel pat repl n cs

/-- Python `l.replace(pat, repl)` for a non-empty pattern. -/
def pyReplace (pat repl l : List Char) : List Char := replFuel pat repl l.length l

/-- Fuelled Python `str.split()` (split on whitespace runs, drop empties).
Fuel `l.length` suffices: every step consumes at least one character. -/
def wordsFuel : Nat → List Char → List (List Char)
  | _, [] => []
  | 0, _ => []
  | n + 1, c :: cs =>
    if isWs c then wordsFuel n cs
    else (c :: List.takeWhile notWs cs) :: wordsFuel n (List.dropWhile notWs cs)

/-- Python `str.split()`. -/
def words (l : List Char) : List (List Char) := wordsFuel l.length l

/-- Python `' '.join(ws)`. -/
def joinWords : List (List Char) → List Char
  | [] => []
  | [w] => w
  | w :: ws => w ++ ' ' :: joinWords ws

/-- Python `' '.join(l.split())` — collapse whitespace runs to single
spaces and trim (explain.py:137, 569, 596). -/
def collapseWs (l : List Char) : List Char := joinWords (words l)

/-- Sequential application of `str.replace` rules, left to right:
`replChain [(p1, r1), (p2, r2)] l` is `l.replace(p1, r1).replace(p2, r2)`. -/
def replChain : List (List Char × List Char) → List Char → List Char
  | [], l => l
  | pr :: ps, l => replChain ps (pyReplace pr.1 pr.2 l)

/-- The replacement rules of `clean_text_for_speech` (explain.py:122-136),
in source order. -/
def cleanRules : List (List Char × List Char) :=
  [ (['\n'], strL " "),
    ([' ', ' '], strL " "),
    (['*', '*'], []),
    (['*'], []),
    (['\x60'], []),
    (['~'], []),
    (['('], []),
    ([')'], []),
    (['['], []),
    ([']'], []),
    (['\x7b'], []),
    (['\x7d'], []),
    (['&'], strL " and "),
    (['%'], strL " percent "),
    (['='], strL " equals "),
    (['≈'], strL " approximately "),
    (['∝'], strL " proportional to "),
    (['×'], strL " multiplied by "),
    (['÷'], strL " divided by "),
    (['°'], strL " degrees "),
    (['+'], strL " plus "),
    (['-'], strL " minus ") ]

/-- The chain of `str.replace` calls of `clean_text_for_speech`
(explain.py:122-136). -/
def sanitizeRepl (text : List Char) : List Char := replChain cleanRules text

/-- Function `clean_text_for_speech` (explain.py:116-138) on string input: the
replacement chain followed by `' '.join(text.split())`.  (The non-string
coercion branch of the source, line 118-120, is outside the string model.) -/
def clean_text_for_speech (text : List Char) : List Char :=
  collapseWs (sanitizeRepl text)

/-- The chunking loop of `translate_if_needed` (explain.py:170-175):
translate successive 4500-character chunks, appending each result plus a
space; any service exception aborts the whole loop.  The translator oracle
`tr` maps a chunk to its translation or an exception message.  Returns the
accumulated text (or the exception) together with the number of service
calls made.  Fuel `l.length` suffices (each step consumes ≥ 1 char). -/
def transLoop (tr : List Char → Except (List Char) (List Char)) :
    Nat → List Char → Except (List Char) (List Char) × Nat
  | _, [] => (Except.ok [], 0)
  | 0, _ => (Except.ok [], 0)
  | n + 1, l =>
    match tr (List.take 4500 l) with
    | Except.error e => (Except.error e, 1)
    | Except.ok t =>
      let r := transLoop tr n (List.drop 4500 l)
      match r.1 with
      | Except.error e => (Except.error e, r.2 + 1)
      | Except.ok rest => (Except.ok (t ++ ' ' :: rest), r.2 + 1)

/-- The `"en"` code treated as "no translation" (explain.py:160). -/
def enCode : List Char := strL "en"

/-- Function `translate_if_needed` (explain.py:158-181).  `code = none` models
`target_lang_code` being Python `None`; `some []` the falsy empty string.
On a service exception the original text is returned (line 178-181). -/
def translate_if_needed (tr : List Char → Except (List Char) (List Char))
    (text : List Char) (code : Option (List Char)) (name : List Char) : List Char :=
  if code = none ∨ code = some [] ∨ code = some enCode then text
  else if text = [] then []
  else
    match (transLoop tr text.length text).1 with
    | Except.ok r => pyStrip r
    | Except.error _ => text

/-- Instrumentation of `translate_if_needed`: how many times the external
`translator.translate` service is invoked on the same inputs (0 on the
passthrough and empty-text branches; one call per chunk attempted). -/
def translate_calls (tr : List Char → Except (List Char) (List Char))
    (text : List Char) (code : Option (List Char)) (name : List Char) : Nat :=
  if code = none ∨ code = some [] ∨ code = some enCode then 0
  else if text = [] then 0
  else (transLoop tr text.length text).2

/-- Function `generate_speech` (explain.py:140-156): `none` for empty text, the
service's audio bytes on success, `none` on a service exception (`ok`
is the oracle for whether gTTS succeeds). -/
def generate_speech (ok : Bool) (bytes : List Nat) (text lang : List Char) :
    Option (List Nat) :=
  if text = [] then none
  else if ok then some bytes else none

/-- Outcome of `model.generate_content` plus the response inspection
(explain.py:209-224): an exception during generation, a blocked response
with feedback, an empty response whose feedback also fails, or text parts. -/
inductive GenOutcome where
  | raiseErr (msg : List Char)
  | blocked (reason ratings : List Char)
  | emptyNoFeedback
  | ok (text : List Char)
deriving DecidableEq

/-- The five values `action_trigger` can hold (explain.py:423-526). -/
inductive ActionTrigger where
  | explain_image
  | read_image
  | explain_text
  | read_text
  | follow_up
deriving DecidableEq

/-- The Python string shown in `f"Error during {action}: {e}"`. -/
def actionName : ActionTrigger → List Char
  | .explain_image => strL "explain_image"
  | .read_image => strL "read_image"
  | .explain_text => strL "explain_text"
  | .read_text => strL "read_text"
  | .follow_up => strL "follow_up"

/-- The prompt passed to `get_gemini_response`, identified by provenance
(EXPLAIN_PROMPT_BASE, READ_PROMPT_IMAGE, READ_PROMPT_TEXT, or the filled
FOLLOW_UP_PROMPT, explain.py:234-288).  The prompt text itself never
influences any modelled control flow — it is only forwarded to the
service oracle — so its literal contents are not reproduced here. -/
inductive Prompt where
  | explainBase
  | readImage
  | readText
  | followUp (prev fb : List Char)

/-- The fields of `st.session_state` the processing logic reads or writes
(initialised at explain.py:60-70). -/
structure Session where
  processing : Bool
  action_trigger : Option ActionTrigger
  api_key_configured : Bool
  gemini_model : Option Nat
  api_key_error_logged : Bool
  last_uploaded_image : Option (List Nat)
  pasted_text_area : List Char
  feedback_input : List Char
  last_explanation : List Char
  current_text_to_speak : List Char
  current_audio_data : Option (List Nat)
  tts_lang_code : List Char
  translate_lang_code : Option (List Char)
  translate_lang_name : List Char
deriving DecidableEq

/-- One turn's worth of external-world behaviour: whether
`genai.configure` + model init would succeed (and the resulting model id),
whether `PIL.Image.open` succeeds, the generation outcome, the translator,
and the gTTS outcome/bytes. -/
structure Oracles where
  net_ok : Bool
  model_id : Nat
  img_open_ok : Bool
  gen : GenOutcome
  tr : List Char → Except (List Char) (List Char)
  speech_ok : Bool
  speech_bytes : List Nat

/-- The hardcoded placeholder rejected as a key (explain.py:30, 80). -/
def placeholderKey : List Char := strL "YOUR_API_KEY_HERE"

/-- Result of `configure_gemini`: the returned model, the updated session,
and whether a network configuration attempt (`genai.configure` +
`GenerativeModel`) was made on this call. -/
structure ConfigureResult where
  model : Option Nat
  s : Session
  attempted : Bool

/-- Function `configure_gemini` (explain.py:73-112).  Returns the cached model when
one was configured successfully in this session; otherwise rejects a
missing/empty/placeholder key without any network traffic; otherwise
attempts configuration, caching on success and clearing the cache on
failure. -/
def configure_gemini (key : Option (List Char)) (o : Oracles) (s : Session) :
    ConfigureResult :=
  if s.gemini_model.isSome ∧ s.api_key_configured = true then
    ⟨s.gemini_model, s, false⟩
  else if key = none ∨ key = some [] ∨ key = some placeholderKey then
    ⟨none, { s with api_key_configured := false, api_key_error_logged := true }, false⟩
  else
    let s1 := { s with api_key_error_logged := false }
    if o.net_ok then
      ⟨some o.model_id,
       { s1 with gemini_model := some o.model_id, api_key_configured := true }, true⟩
    else
      ⟨none, { s1 with api_key_configured := false, gemini_model := none }, true⟩

/-- The marker with which every adapter-produced error string begins, and
which the orchestrator searches for as a substring (explain.py:588, 606). -/
def errMark : List Char := strL "Error:"

/-- The generation part of `get_gemini_response` (explain.py:208-230):
exceptions, blocked and empty responses become error strings; a response
with text parts yields the stripped text. -/
def gemini_generate (o : Oracles) : List Char :=
  match o.gen with
  | .raiseErr e =>
    strL "Error: Could not get response from AI during generation. Details: " ++ e
  | .blocked reason ratings =>
    strL "Error: AI response blocked. Reason: " ++ reason ++ strL ". Ratings: " ++ ratings
  | .emptyNoFeedback =>
    strL "Error: AI generated an empty response (possibly due to safety filters or content restrictions)."
  | .ok t => pyStrip t

/-- Function `get_gemini_response` (explain.py:183-230): configure (possibly
mutating the session), fail with an error string when no model is
available, decode the image when one was passed, then generate. -/
def get_gemini_response (key : Option (List Char)) (o : Oracles) (prompt : Prompt)
    (image_bytes : Option (List Nat)) (text_input : Option (List Char))
    (s : Session) : List Char × Session :=
  let cr := configure_gemini key o s
  match cr.model with
  | none =>
    (strL "Error: Gemini model failed to configure. Check API Key and logs.", cr.s)
  | some _ =>
    match image_bytes with
    | some _ =>
      if o.img_open_ok then (gemini_generate o, cr.s)
      else (strL "Error: Could not read image data.", cr.s)
    | none => (gemini_generate o, cr.s)

/-- The note appended when audio generation fails (explain.py:612). -/
def audioFailNote : List Char := strL "\n\n(Error generating audio for this text)"

/-- The placeholder shown when no text was produced (explain.py:620). -/
def noContentMsg : List Char := strL "(No content was generated or extracted)"

/-- The `except` branch of the processing logic (explain.py:623-628):
store `f"Error during {action}: {e}"` and clear the audio. -/
def except_state (a : ActionTrigger) (msg : List Char) (s : Session) : Session :=
  { s with
    current_text_to_speak := strL "Error during " ++ actionName a ++ strL ": " ++ msg,
    current_audio_data := none }

/-- Python `action in ["explain_image", "explain_text", "follow_up"]`
(explain.py:590). -/
def isExplainAction (a : ActionTrigger) : Bool :=
  a = ActionTrigger.explain_image || a = ActionTrigger.explain_text || a = ActionTrigger.follow_up

/-- The "Process Gemini Result" section (explain.py:587-603) for a call
that did reach Gemini: given the result string `r`, produce the
`final_text_to_speak` and the session after the context update. -/
def gemini_branch (o : Oracles) (a : ActionTrigger) (r : List Char) (s : Session) :
    List Char × Session :=
  if hasSub errMark r = true then (r, s)
  else if isExplainAction a = true then
    let ce := clean_text_for_speech r
    (translate_if_needed o.tr ce s.translate_lang_code s.translate_lang_name,
     { s with last_explanation := ce })
  else if a = ActionTrigger.read_image then
    let ct := collapseWs r
    (translate_if_needed o.tr ct s.translate_lang_code s.translate_lang_name,
     { s with last_explanation := [] })
  else ([], s)

/-- The "Generate Audio" section (explain.py:605-621): synthesize when the
text is non-empty and carries no error marker (appending a note when the
audio came back falsy), otherwise store the text (or the no-content
placeholder) with no audio. -/
def audio_stage (o : Oracles) (ft : List Char) (s : Session) : Session :=
  if ft ≠ [] ∧ hasSub errMark ft = false then
    let audio := generate_speech o.speech_ok o.speech_bytes ft s.tts_lang_code
    let s1 := { s with current_text_to_speak := ft, current_audio_data := audio }
    if audio = none ∨ audio = some [] then
      { s1 with current_text_to_speak := ft ++ audioFailNote }
    else s1
  else if ft ≠ [] then
    { s with current_text_to_speak := ft, current_audio_data := none }
  else
    { s with current_text_to_speak := noContentMsg, current_audio_data := none }

/-- The `try` block of the processing logic (explain.py:540-621): the five
per-action procedures, the guard `raise ValueError`s (which land in the
`except` branch), the Gemini-result processing and the audio stage. -/
def try_body (key : Option (List Char)) (o : Oracles) (a : ActionTrigger) (s : Session) :
    Session :=
  match a with
  | .explain_image =>
    match s.last_uploaded_image with
    | none => except_state a (strL "No image data found for explanation.") s
    | some img =>
      let p := get_gemini_response key o .explainBase (some img) none s
      let q := gemini_branch o a p.1 p.2
      audio_stage o q.1 q.2
  | .read_image =>
    match s.last_uploaded_image with
    | none => except_state a (strL "No image data found for reading.") s
    | some img =>
      let p := get_gemini_response key o .readImage (some img) none s
      let q := gemini_branch o a p.1 p.2
      audio_stage o q.1 q.2
  | .explain_text =>
    if s.pasted_text_area = [] then
      except_state a (strL "No pasted text found for explanation.") s
    else
      let p := get_gemini_response key o .explainBase none (some s.pasted_text_area) s
      let q := gemini_branch o a p.1 p.2
      audio_stage o q.1 q.2
  | .read_text =>
    if s.pasted_text_area = [] then
      except_state a (strL "No pasted text found for reading.") s
    else
      let cleaned := collapseWs s.pasted_text_area
      let s1 := { s with last_explanation := [] }
      let ft := translate_if_needed o.tr cleaned s1.translate_lang_code s1.translate_lang_name
      audio_stage o ft s1
  | .follow_up =>
    if s.feedback_input = [] then
      except_state a (strL "No follow-up text provided.") s
    else if s.last_explanation = [] then
      except_state a (strL "No previous explanation context found for follow-up.") s
    else
      let p := get_gemini_response key o (.followUp s.last_explanation s.feedback_input)
        none none s
      let q := gemini_branch o a p.1 p.2
      audio_stage o q.1 q.2

/-- One pass of the `if st.session_state.processing:` block
(explain.py:533-647): run the action through `try`/`except` and the
`finally` flag reset, or take one of the two safety-net branches
(API not ready / trigger lost).  When `processing` is false the block
does not run. -/
def process_turn (key : Option (List Char)) (o : Oracles) (s : Session) : Session :=
  if s.processing = true then
    match s.action_trigger with
    | some a =>
      if s.api_key_configured = true then
        let s1 := try_body key o a s
        { s1 with processing := false, action_trigger := none }
      else
        { s with processing := false, action_trigger := none }
    | none => { s with processing := false, action_trigger := none }
  else s

/-- Session-state defaults (explain.py:60-70). -/
def sBase : Session :=
  { processing := false
    action_trigger := none
    api_key_configured := false
    gemini_model := none
    api_key_error_logged := false
    last_uploaded_image := none
    pasted_text_area := []
    feedback_input := []
    last_explanation := []
    current_text_to_speak := []
    current_audio_data := none
    tts_lang_code := strL "en"
    translate_lang_code := none
    translate_lang_name := strL "None (Original Language)" }

/-- A benign world: everything external succeeds, the translator is the
identity, speech yields one byte. -/
def oBase : Oracles :=
  { net_ok := true
    model_id := 1
    img_open_ok := true
    gen := GenOutcome.ok []
    tr := fun c => Except.ok c
    speech_ok := true
    speech_bytes := [7] }

/-- A present, non-placeholder API key. -/
def keyBase : Option (List Char) := some (strL "k")

/-! ### Lemmas about the string primitives -/

/-- No two adjacent spaces anywhere in the list. -/
def noDS : List Char → Bool
  | a :: b :: l => !(a == ' ' && b == ' ') && noDS (b :: l)
  | _ => true

/-- The character never occurs in any replacement string of the rule list. -/
def noReintro (σ : Char) : List (List Char × List Char) → Bool
  | [] => true
  | pr :: ps => !(pr.2.contains σ) && noReintro σ ps

/-- Some rule of the list erases the single character `σ` (replacing it by
a string free of it) and no later rule reintroduces it. -/
def chainKills (σ : Char) : List (List Char × List Char) → Bool
  | [] => false
  | pr :: ps =>
    (pr.1 == [σ] && !(pr.2.contains σ) && noReintro σ ps) || chainKills σ ps

/-- An oracle world where the configuration handshake fails. -/
def oFailNet : Oracles := { oBase with net_ok := false }

/-- A read-text turn with non-empty pasted text. -/
def sReadText : Session :=
  { sBase with
    processing := true
    action_trigger := some ActionTrigger.read_text
    api_key_configured := true
    pasted_text_area := strL "hello" }

/-- A read-text turn whose pasted text itself contains the marker. -/
def sReadErrText : Session :=
  { sBase with
    processing := true
    action_trigger := some ActionTrigger.read_text
    api_key_configured := true
    pasted_text_area := strL "Error: boom" }

/-- A read-image turn with stale follow-up context, where generation
raises. -/
def sReadImgStale : Session :=
  { sBase with
    processing := true
    action_trigger := some ActionTrigger.read_image
    api_key_configured := true
    gemini_model := some 1
    last_uploaded_image := some [0]
    last_explanation := strL "old" }

/-- An oracle world where `generate_content` raises. -/
def oGenRaise : Oracles := { oBase with gen := GenOutcome.raiseErr (strL "boom") }

/-- A read-text turn with stale context and non-empty pasted text. -/
def sReadTextStale : Session :=
  { sBase with
    processing := true
    action_trigger := some ActionTrigger.read_text
    api_key_configured := true
    pasted_text_area := strL "hello"
    last_explanation := strL "old" }

/-- An explain-text turn whose AI success response is all markdown
brackets, sanitizing to the empty string. -/
def sExplainEmpty : Session :=
  { sBase with
    processing := true
    action_trigger := some ActionTrigger.explain_text
    api_key_configured := true
    gemini_model := some 1
    pasted_text_area := strL "x"
    last_explanation := strL "old" }

/-- The AI answers `"( )"`, which sanitizes to the empty string. -/
def oGenParens : Oracles := { oBase with gen := GenOutcome.ok (strL "( )") }

/-- An explain-text turn whose AI success answer contains — but does not
begin with — the error marker. -/
def sExplainMid : Session :=
  { sBase with
    processing := true
    action_trigger := some ActionTrigger.explain_text
    api_key_configured := true
    gemini_model := some 1
    pasted_text_area := strL "x" }

/-- The AI answers `"A Error: B"`. -/
def oGenMidErr : Oracles := { oBase with gen := GenOutcome.ok (strL "A Error: B") }

/-- The AI answers `"Hello world"`. -/
def oGenHello : Oracles := { oBase with gen := GenOutcome.ok (strL "Hello world") }

/-- A read-text turn targeting Telugu. -/
def sReadTextTe : Session :=
  { sBase with
    processing := true
    action_trigger := some ActionTrigger.read_text
    api_key_configured := true
    pasted_text_area := strL "hello"
    translate_lang_code := some (strL "te")
    translate_lang_name := strL "Telugu" }

/-- A world whose translation service always raises. -/
def oTrFail : Oracles := { oBase with tr := fun _ => Except.error (strL "boom") }

/-- Every character of a matched prefix occurs in the scanned list. -/
theorem isPre_mem {p l : List Char} (h : isPre p l = true) :
    ∀ a ∈ p, a ∈ l := by
  induction p generalizing l with
  | nil => intro a ha; cases ha
  | cons x xs ih =>
    cases l with
    | nil => simp [isPre] at h
    | cons b bs =>
      simp only [isPre, Bool.and_eq_true, beq_iff_eq] at h
      intro a ha
      rcases List.mem_cons.mp ha with rfl | ha
      · exact h.1 ▸ List.mem_cons_self _ _
      · exact List.mem_cons_of_mem _ (ih h.2 a ha)

/-- A prefix match survives appending on the right. -/
theorem isPre_append_left {p a : List Char} (h : isPre p a = true) (b : List Char) :
    isPre p (a ++ b) = true := by
  induction p generalizing a with
  | nil => rfl
  | cons x xs ih =>
    cases a with
    | nil => simp [isPre] at h
    | cons c cs =>
      simp only [isPre, Bool.and_eq_true, beq_iff_eq] at h ⊢
      exact ⟨h.1, ih h.2⟩

/-- A non-empty pattern is never a substring of the empty string. -/
theorem hasSub_ne_nil {p l : List Char} (hp : p ≠ []) (h : hasSub p l = true) :
    l ≠ [] := by
  intro hl; subst hl
  cases p with
  | nil => exact hp rfl
  | cons x xs => simp [hasSub, isPre] at h

/-- Characters produced by the replacement scanner come from the
replacement string or from the input. -/
theorem replFuel_mem {pat repl : List Char} :
    ∀ {n l c}, c ∈ replFuel pat repl n l → c ∈ repl ∨ c ∈ l := by
  intro n
  induction n with
  | zero =>
    intro l c h
    cases l with
    | nil => cases h
    | cons a as => exact Or.inr h
  | succ n ih =>
    intro l c h
    cases l with
    | nil => cases h
    | cons a as =>
      simp only [replFuel] at h
      by_cases hp : isPre pat (a :: as) = true
      · rw [if_pos hp] at h
        rcases List.mem_append.mp h with h | h
        · exact Or.inl h
        · rcases ih h with h | h
          · exact Or.inl h
          · exact Or.inr (List.mem_cons_of_mem _ (List.drop_subset _ _ h))
      · rw [if_neg hp] at h
        rcases List.mem_cons.mp h with rfl | h
        · exact Or.inr (List.mem_cons_self _ _)
        · rcases ih h with h | h
          · exact Or.inl h
          · exact Or.inr (List.mem_cons_of_mem _ h)

/-- A character absent from input and replacement is absent from the
output of a replacement pass. -/
theorem pyReplace_keep {σ : Char} {pat repl l : List Char}
    (h1 : σ ∉ repl) (h2 : σ ∉ l) : σ ∉ pyReplace pat repl l := by
  intro h
  rcases replFuel_mem h with h | h
  · exact h1 h
  · exact h2 h

/-- Replacing the single character `σ` by a string not containing it
removes every occurrence of `σ`. -/
theorem replFuel_kill {σ : Char} {repl : List Char} (h1 : σ ∉ repl) :
    ∀ {n l}, l.length ≤ n → σ ∉ replFuel [σ] repl n l := by
  intro n
  induction n with
  | zero =>
    intro l hl
    have : l = [] := List.length_eq_zero.mp (Nat.le_zero.mp hl)
    subst this; intro h; cases h
  | succ n ih =>
    intro l hl
    cases l with
    | nil => intro h; cases h
    | cons a as =>
      simp only [replFuel]
      by_cases ha : σ = a
      · subst ha
        have hp : isPre [σ] (σ :: as) = true := by simp [isPre]
        rw [if_pos hp]
        intro h
        rcases List.mem_append.mp h with h | h
        · exact h1 h
        · exact ih (by simpa using Nat.le_of_succ_le_succ hl) (by simpa using h)
      · have hp : isPre [σ] (a :: as) = false := by
          simp [isPre, beq_iff_eq]; exact ha
        rw [hp]
        simp only [Bool.false_eq_true, if_false]
        intro h
        rcases List.mem_cons.mp h with h | h
        · exact ha h
        · exact ih (Nat.le_of_succ_le_succ hl) h

/-- Version of `replFuel_kill` stated for `pyReplace`. -/
theorem pyReplace_kill {σ : Char} {repl : List Char} (h1 : σ ∉ repl) (l : List Char) :
    σ ∉ pyReplace [σ] repl l :=
  replFuel_kill h1 (Nat.le_refl _)

/-- A replacement pass whose pattern has a character that never occurs in
the input is the identity. -/
theorem replFuel_noop {a : Char} {pat repl : List Char} (ha : a ∈ pat) :
    ∀ {n l}, a ∉ l → replFuel pat repl n l = l := by
  intro n
  induction n with
  | zero =>
    intro l _
    cases l with
    | nil => rfl
    | cons c cs => rfl
  | succ n ih =>
    intro l hl
    cases l with
    | nil => rfl
    | cons c cs =>
      have hp : isPre pat (c :: cs) = false := by
        by_contra h
        have := isPre_mem (Bool.of_not_eq_false h) a ha
        exact hl this
      simp only [replFuel, hp, Bool.false_eq_true, if_false]
      rw [ih (fun h => hl (List.mem_cons_of_mem _ h))]

/-- Version of `replFuel_noop` stated for `pyReplace`. -/
theorem pyReplace_noop {a : Char} {pat repl : List Char} (ha : a ∈ pat)
    {l : List Char} (hl : a ∉ l) : pyReplace pat repl l = l :=
  replFuel_noop ha hl

theorem noDS_tail {c : Char} {l : List Char} (h : noDS (c :: l) = true) :
    noDS l = true := by
  cases l with
  | nil => rfl
  | cons b bs =>
    simp only [noDS, Bool.and_eq_true] at h
    exact h.2

theorem noDS_cons {c : Char} (hc : c ≠ ' ') {l : List Char} (h : noDS l = true) :
    noDS (c :: l) = true := by
  cases l with
  | nil => rfl
  | cons b bs =>
    simp only [noDS, Bool.and_eq_true, Bool.not_eq_true', Bool.and_eq_false_iff,
      beq_eq_false_iff_ne, ne_eq]
    exact ⟨Or.inl hc, h⟩

/-- On a string with no adjacent double space, the `replace('  ', ' ')`
pass is the identity. -/
theorem replFuel_noop_ds {repl : List Char} :
    ∀ {n l}, noDS l = true → replFuel [' ', ' '] repl n l = l := by
  intro n
  induction n with
  | zero =>
    intro l _
    cases l with
    | nil => rfl
    | cons c cs => rfl
  | succ n ih =>
    intro l hl
    cases l with
    | nil => rfl
    | cons c cs =>
      have hp : isPre [' ', ' '] (c :: cs) = false := by
        cases cs with
        | nil => simp [isPre]
        | cons b bs =>
          simp only [noDS, Bool.and_eq_true, Bool.not_eq_true', Bool.and_eq_false_iff,
            beq_eq_false_iff_ne, ne_eq] at hl
          simp only [isPre, Bool.and_eq_true, beq_iff_eq, Bool.and_eq_false_iff]
          rcases hl.1 with h | h
          · left; simp [beq_eq_false_iff_ne]; exact fun hh => h hh.symm
          · right; left; simp [beq_eq_false_iff_ne]; exact fun hh => h hh.symm
      simp only [replFuel, hp, Bool.false_eq_true, if_false]
      rw [ih (noDS_tail hl)]

theorem pyReplace_noop_ds {repl l : List Char} (h : noDS l = true) :
    pyReplace [' ', ' '] repl l = l :=
  replFuel_noop_ds h

/-! ### Lemmas about `words` / `joinWords` -/
theorem wordsFuel_nil : ∀ n, wordsFuel n [] = [] := by
  intro n; cases n <;> rfl

/-- The fuel is irrelevant as long as it bounds the length. -/
theorem wordsFuel_irrel :
    ∀ {n m : Nat} {l : List Char}, l.length ≤ n → l.length ≤ m →
      wordsFuel n l = wordsFuel m l := by
  intro n
  induction n with
  | zero =>
    intro m l hn _
    have : l = [] := List.length_eq_zero.mp (Nat.le_zero.mp hn)
    subst this
    rw [wordsFuel_nil, wordsFuel_nil]
  | succ n ih =>
    intro m l hn hm
    cases l with
    | nil => rw [wordsFuel_nil, wordsFuel_nil]
    | cons c cs =>
      cases m with
      | zero => exact absurd hm (by simp)
      | succ m =>
        simp only [wordsFuel]
        by_cases hc : isWs c = true
        · rw [if_pos hc, if_pos hc]
          exact ih (Nat.le_of_succ_le_succ hn) (Nat.le_of_succ_le_succ hm)
        · rw [if_neg hc, if_neg hc]
          have hd : (List.dropWhile notWs cs).length ≤ cs.length :=
            (List.dropWhile_sublist notWs).length_le
          exact congrArg _ (ih (Nat.le_trans hd (Nat.le_of_succ_le_succ hn))
            (Nat.le_trans hd (Nat.le_of_succ_le_succ hm)))

theorem wordsFuel_eq_words {n : Nat} {l : List Char} (h : l.length ≤ n) :
    wordsFuel n l = words l :=
  wordsFuel_irrel h (Nat.le_refl _)

theorem words_ws_cons {c : Char} (hc : isWs c = true) (l : List Char) :
    words (c :: l) = words l := by
  show wordsFuel (c :: l).length (c :: l) = words l
  simp only [List.length_cons, wordsFuel, hc, if_pos]
  exact wordsFuel_eq_words (Nat.le_refl _)

theorem takeWhile_all {p : Char → Bool} :
    ∀ {w r : List Char}, (∀ c ∈ w, p c = true) →
      (r = [] ∨ ∃ d r2, r = d :: r2 ∧ p d = false) →
      List.takeWhile p (w ++ r) = w ∧ List.dropWhile p (w ++ r) = r := by
  intro w
  induction w with
  | nil =>
    intro r _ hr
    rcases hr with rfl | ⟨d, r2, rfl, hd⟩
    · exact ⟨rfl, rfl⟩
    · simp [List.takeWhile_cons, List.dropWhile_cons, hd]
  | cons c cs ih =>
    intro r hw hr
    have hc : p c = true := hw c (List.mem_cons_self _ _)
    have := ih (fun x hx => hw x (List.mem_cons_of_mem _ hx)) hr
    simp only [List.cons_append, List.takeWhile_cons, List.dropWhile_cons, hc,
      if_pos, this.1, this.2, and_self]

/-- Splitting a non-whitespace word off the front. -/
theorem words_word_append {c : Char} (hc : isWs c = false) {w r : List Char}
    (hw : ∀ x ∈ w, isWs x = false)
    (hr : r = [] ∨ ∃ d r2, r = d :: r2 ∧ isWs d = true) :
    words ((c :: w) ++ r) = (c :: w) :: words r := by
  have hw' : ∀ x ∈ w, notWs x = true := by
    intro x hx; simp [notWs, hw x hx]
  have hr' : r = [] ∨ ∃ d r2, r = d :: r2 ∧ notWs d = false := by
    rcases hr with rfl | ⟨d, r2, rfl, hd⟩
    · exact Or.inl rfl
    · exact Or.inr ⟨d, r2, rfl, by simp [notWs, hd]⟩
  have htw := takeWhile_all hw' hr'
  show wordsFuel ((c :: w) ++ r).length ((c :: w) ++ r) = (c :: w) :: words r
  simp only [List.cons_append, List.length_cons, wordsFuel, hc, Bool.false_eq_true,
    if_false, List.append_eq, htw.1, htw.2]
  refine congrArg _ (wordsFuel_eq_words ?_)
  simp only [List.length_append]
  exact Nat.le_add_left _ _

/-- Every word produced by `split()` is non-empty and whitespace-free. -/
theorem wordsFuel_spec :
    ∀ {n l w}, w ∈ wordsFuel n l → w ≠ [] ∧ ∀ c ∈ w, isWs c = false := by
  intro n
  induction n with
  | zero =>
    intro l w h
    cases l with
    | nil => cases h
    | cons c cs => cases h
  | succ n ih =>
    intro l w h
    cases l with
    | nil => cases h
    | cons c cs =>
      simp only [wordsFuel] at h
      by_cases hc : isWs c = true
      · rw [if_pos hc] at h; exact ih h
      · rw [if_neg hc] at h
        rcases List.mem_cons.mp h with rfl | h
        · refine ⟨by simp, ?_⟩
          intro x hx
          rcases List.mem_cons.mp hx with rfl | hx
          · exact Bool.of_not_eq_true hc
          · have := List.mem_takeWhile_imp hx
            simpa [notWs] using this
        · exact ih h

theorem words_spec {l : List Char} :
    ∀ w ∈ words l, w ≠ [] ∧ ∀ c ∈ w, isWs c = false :=
  fun w h => wordsFuel_spec h

/-- Characters of any split word come from the input. -/
theorem wordsFuel_sub :
    ∀ {n l w c}, w ∈ wordsFuel n l → c ∈ w → c ∈ l := by
  intro n
  induction n with
  | zero =>
    intro l w c h
    cases l with
    | nil => cases h
    | cons a as => cases h
  | succ n ih =>
    intro l w c h hc
    cases l with
    | nil => cases h
    | cons a as =>
      simp only [wordsFuel] at h
      by_cases ha : isWs a = true
      · rw [if_pos ha] at h
        exact List.mem_cons_of_mem _ (ih h hc)
      · rw [if_neg ha] at h
        rcases List.mem_cons.mp h with rfl | h
        · rcases List.mem_cons.mp hc with rfl | hc
          · exact List.mem_cons_self _ _
          · exact List.mem_cons_of_mem _ ((List.takeWhile_sublist notWs).subset hc)
        · exact List.mem_cons_of_mem _
            ((List.dropWhile_sublist notWs).subset (ih h hc))

theorem mem_words {l w : List Char} {c : Char} (h : w ∈ words l) (hc : c ∈ w) :
    c ∈ l :=
  wordsFuel_sub h hc

/-- Characters of a join are the separator space or word characters. -/
theorem joinWords_mem :
    ∀ {ws : List (List Char)} {c}, c ∈ joinWords ws → c = ' ' ∨ ∃ w ∈ ws, c ∈ w := by
  intro ws
  induction ws with
  | nil => intro c h; cases h
  | cons w vs ih =>
    intro c h
    cases vs with
    | nil =>
      exact Or.inr ⟨w, List.mem_cons_self _ _, h⟩
    | cons v vs' =>
      simp only [joinWords] at h
      rcases List.mem_append.mp h with h | h
      · exact Or.inr ⟨w, List.mem_cons_self _ _, h⟩
      · rcases List.mem_cons.mp h with rfl | h
        · exact Or.inl rfl
        · rcases ih h with h | ⟨u, hu, hcu⟩
          · exact Or.inl h
          · exact Or.inr ⟨u, List.mem_cons_of_mem _ hu, hcu⟩

/-- Characters of the whitespace-collapsed string are the space or input
characters. -/
theorem mem_collapseWs {l : List Char} {c : Char} (h : c ∈ collapseWs l) :
    c = ' ' ∨ c ∈ l := by
  rcases joinWords_mem h with h | ⟨w, hw, hcw⟩
  · exact Or.inl h
  · exact Or.inr (mem_words hw hcw)

/-- Whitespace other than the plain space never survives collapsing. -/
theorem collapseWs_ws {l : List Char} {c : Char} (h : c ∈ collapseWs l)
    (hws : isWs c = true) : c = ' ' := by
  rcases joinWords_mem h with h | ⟨w, hw, hcw⟩
  · exact h
  · exact absurd ((words_spec w hw).2 c hcw) (by simp [hws])

/-- Splitting undoes joining for non-empty whitespace-free words. -/
theorem words_joinWords :
    ∀ {ws : List (List Char)},
      (∀ w ∈ ws, w ≠ [] ∧ ∀ c ∈ w, isWs c = false) →
      words (joinWords ws) = ws := by
  intro ws
  induction ws with
  | nil => intro _; rfl
  | cons w vs ih =>
    intro h
    have hw := h w (List.mem_cons_self _ _)
    obtain ⟨c, w', rfl⟩ : ∃ c w', w = c :: w' := by
      cases w with
      | nil => exact absurd rfl hw.1
      | cons c w' => exact ⟨c, w', rfl⟩
    have hc : isWs c = false := hw.2 c (List.mem_cons_self _ _)
    have hw' : ∀ x ∈ w', isWs x = false :=
      fun x hx => hw.2 x (List.mem_cons_of_mem _ hx)
    cases vs with
    | nil =>
      have h0 := words_word_append hc hw' (Or.inl rfl)
      rw [List.append_nil] at h0
      show words (c :: w') = [c :: w']
      rw [h0]
      rfl
    | cons v vs' =>
      show words ((c :: w') ++ ' ' :: joinWords (v :: vs')) = (c :: w') :: v :: vs'
      rw [words_word_append hc hw' (Or.inr ⟨' ', joinWords (v :: vs'), rfl, by decide⟩)]
      rw [words_ws_cons (by decide)]
      exact congrArg _ (ih (fun u hu => h u (List.mem_cons_of_mem _ hu)))

/-- Collapsing whitespace is idempotent. -/
theorem collapseWs_idem (l : List Char) : collapseWs (collapseWs l) = collapseWs l := by
  show joinWords (words (joinWords (words l))) = joinWords (words l)
  rw [words_joinWords (words_spec)]

theorem noDS_prepend {w : List Char} (hw : ∀ c ∈ w, c ≠ ' ') {l : List Char}
    (hl : noDS l = true) : noDS (w ++ l) = true := by
  induction w with
  | nil => exact hl
  | cons c cs ih =>
    exact noDS_cons (hw c (List.mem_cons_self _ _))
      (ih (fun x hx => hw x (List.mem_cons_of_mem _ hx)))

/-- A join of non-empty whitespace-free words has no double space, and
starts with a non-space when non-empty. -/
theorem joinWords_noDS :
    ∀ {ws : List (List Char)},
      (∀ w ∈ ws, w ≠ [] ∧ ∀ c ∈ w, isWs c = false) →
      noDS (joinWords ws) = true ∧
        ∀ d, (joinWords ws).head? = some d → isWs d = false := by
  intro ws
  induction ws with
  | nil => intro _; exact ⟨rfl, by intro d h; cases h⟩
  | cons w vs ih =>
    intro h
    have hw := h w (List.mem_cons_self _ _)
    obtain ⟨c, w', rfl⟩ : ∃ c w', w = c :: w' := by
      cases w with
      | nil => exact absurd rfl hw.1
      | cons c w' => exact ⟨c, w', rfl⟩
    have hnosp : ∀ x ∈ c :: w', x ≠ ' ' := by
      intro x hx he
      have := hw.2 x hx
      rw [he] at this
      simp [isWs] at this
    cases vs with
    | nil =>
      refine ⟨?_, by intro d hd; cases hd; exact hw.2 c (List.mem_cons_self _ _)⟩
      have h0 := noDS_prepend hnosp (l := []) rfl
      rwa [List.append_nil] at h0
    | cons v vs' =>
      have ihv := ih (fun u hu => h u (List.mem_cons_of_mem _ hu))
      have hJ : noDS (' ' :: joinWords (v :: vs')) = true := by
        cases hJv : joinWords (v :: vs') with
        | nil => rfl
        | cons d J' =>
          have hd : isWs d = false := ihv.2 d (by rw [hJv]; rfl)
          have hd' : (d == ' ') = false := by
            simp only [beq_eq_false_iff_ne, ne_eq]
            intro he; subst he; simp [isWs] at hd
          simp only [noDS, hd', Bool.and_false, Bool.not_false, Bool.true_and]
          have := ihv.1
          rw [hJv] at this
          exact this
      refine ⟨noDS_prepend hnosp hJ, ?_⟩
      intro d hd
      cases hd
      exact hw.2 c (List.mem_cons_self _ _)

/-- The collapsed form of any string has no double space. -/
theorem collapseWs_noDS (l : List Char) : noDS (collapseWs l) = true :=
  (joinWords_noDS (words_spec)).1

theorem replChain_keep {σ : Char} :
    ∀ {ps : List (List Char × List Char)}, noReintro σ ps = true →
      ∀ {l : List Char}, σ ∉ l → σ ∉ replChain ps l := by
  intro ps
  induction ps with
  | nil => intro _ l h; exact h
  | cons pr ps ih =>
    intro h l hl
    simp only [noReintro, Bool.and_eq_true, Bool.not_eq_true'] at h
    exact ih h.2 (pyReplace_keep (by simpa using h.1) hl)

theorem replChain_kills {σ : Char} :
    ∀ {ps : List (List Char × List Char)}, chainKills σ ps = true →
      ∀ l, σ ∉ replChain ps l := by
  intro ps
  induction ps with
  | nil => intro h; cases h
  | cons pr ps ih =>
    intro h l
    simp only [chainKills, Bool.or_eq_true, Bool.and_eq_true, beq_iff_eq,
      Bool.not_eq_true'] at h
    rcases h with ⟨⟨hp, hr⟩, hn⟩ | h
    · show σ ∉ replChain ps (pyReplace pr.1 pr.2 l)
      rw [hp]
      exact replChain_keep hn (pyReplace_kill (by simpa using hr) l)
    · exact ih h _

/-- The characters targeted by the replacement chain never survive the
chain: each is removed at its own pass and no later replacement string
reintroduces it. -/
theorem sanitizeRepl_excludes (t : List Char) :
    ∀ σ ∈ ['\n', '*', '\x60', '~', '(', ')', '[', ']', '\x7b', '\x7d',
           '&', '%', '=', '≈', '∝', '×', '÷', '°', '+', '-'],
      σ ∉ sanitizeRepl t := by
  intro σ hσ
  simp only [List.mem_cons, List.not_mem_nil, or_false] at hσ
  rcases hσ with rfl|rfl|rfl|rfl|rfl|rfl|rfl|rfl|rfl|rfl|rfl|rfl|rfl|rfl|rfl|rfl|rfl|rfl|rfl|rfl <;>
    exact replChain_kills (by decide) t

theorem replChain_noop {l : List Char} :
    ∀ {ps : List (List Char × List Char)},
      (∀ pr ∈ ps, pyReplace pr.1 pr.2 l = l) → replChain ps l = l := by
  intro ps
  induction ps with
  | nil => intro _; rfl
  | cons pr ps ih =>
    intro h
    show replChain ps (pyReplace pr.1 pr.2 l) = l
    rw [h pr (List.mem_cons_self _ _)]
    exact ih (fun x hx => h x (List.mem_cons_of_mem _ hx))

/-- On an already-cleaned string, the whole replacement chain is the
identity: no targeted character survives cleaning and the cleaned string
has no double space. -/
theorem sanitizeRepl_noop_on_clean (t : List Char) :
    sanitizeRepl (clean_text_for_speech t) = clean_text_for_speech t := by
  have hchar : ∀ σ ∈ ['\n', '*', '\x60', '~', '(', ')', '[', ']', '\x7b', '\x7d',
      '&', '%', '=', '≈', '∝', '×', '÷', '°', '+', '-'],
      σ ∉ clean_text_for_speech t := by
    intro σ hσ hmem
    rcases mem_collapseWs hmem with h | h
    · subst h; exact absurd hσ (by decide)
    · exact sanitizeRepl_excludes t σ hσ h
  have hds : noDS (clean_text_for_speech t) = true := collapseWs_noDS _
  refine replChain_noop ?_
  intro pr hpr
  simp only [cleanRules, List.mem_cons, List.not_mem_nil, or_false] at hpr
  rcases hpr with rfl|rfl|rfl|rfl|rfl|rfl|rfl|rfl|rfl|rfl|rfl|rfl|rfl|rfl|rfl|rfl|rfl|rfl|rfl|rfl|rfl|rfl
  · exact pyReplace_noop (a := '\n') (by decide) (hchar '\n' (by decide))
  · exact pyReplace_noop_ds hds
  · exact pyReplace_noop (a := '*') (by decide) (hchar '*' (by decide))
  · exact pyReplace_noop (a := '*') (by decide) (hchar '*' (by decide))
  · exact pyReplace_noop (a := '\x60') (by decide) (hchar '\x60' (by decide))
  · exact pyReplace_noop (a := '~') (by decide) (hchar '~' (by decide))
  · exact pyReplace_noop (a := '(') (by decide) (hchar '(' (by decide))
  · exact pyReplace_noop (a := ')') (by decide) (hchar ')' (by decide))
  · exact pyReplace_noop (a := '[') (by decide) (hchar '[' (by decide))
  · exact pyReplace_noop (a := ']') (by decide) (hchar ']' (by decide))
  · exact pyReplace_noop (a := '\x7b') (by decide) (hchar '\x7b' (by decide))
  · exact pyReplace_noop (a := '\x7d') (by decide) (hchar '\x7d' (by decide))
  · exact pyReplace_noop (a := '&') (by decide) (hchar '&' (by decide))
  · exact pyReplace_noop (a := '%') (by decide) (hchar '%' (by decide))
  · exact pyReplace_noop (a := '=') (by decide) (hchar '=' (by decide))
  · exact pyReplace_noop (a := '≈') (by decide) (hchar '≈' (by decide))
  · exact pyReplace_noop (a := '∝') (by decide) (hchar '∝' (by decide))
  · exact pyReplace_noop (a := '×') (by decide) (hchar '×' (by decide))
  · exact pyReplace_noop (a := '÷') (by decide) (hchar '÷' (by decide))
  · exact pyReplace_noop (a := '°') (by decide) (hchar '°' (by decide))
  · exact pyReplace_noop (a := '+') (by decide) (hchar '+' (by decide))
  · exact pyReplace_noop (a := '-') (by decide) (hchar '-' (by decide))

/-! ### Claims C7 and C8 -/

/-- C7: `sanitize` (`clean_text_for_speech`) is idempotent: for every
input string, `sanitize (sanitize x) = sanitize x`. -/
theorem C7_sanitize_idempotent (x : List Char) :
    clean_text_for_speech (clean_text_for_speech x) = clean_text_for_speech x := by
  show collapseWs (sanitizeRepl (clean_text_for_speech x)) = clean_text_for_speech x
  rw [sanitizeRepl_noop_on_clean]
  show collapseWs (collapseWs (sanitizeRepl x)) = collapseWs (sanitizeRepl x)
  exact collapseWs_idem _

/-- C8: `sanitize "100% + 5 = 105"` evaluates to
`"100 percent plus 5 equals 105"`, which contains the words "percent",
"plus" and "equals" and no residual '%', '+' or '=' character. -/
theorem C8_sanitize_percent_plus_equals :
    clean_text_for_speech (strL "100% + 5 = 105") = strL "100 percent plus 5 equals 105" ∧
    hasSub (strL "percent") (clean_text_for_speech (strL "100% + 5 = 105")) = true ∧
    hasSub (strL "plus") (clean_text_for_speech (strL "100% + 5 = 105")) = true ∧
    hasSub (strL "equals") (clean_text_for_speech (strL "100% + 5 = 105")) = true ∧
    '%' ∉ clean_text_for_speech (strL "100% + 5 = 105") ∧
    '+' ∉ clean_text_for_speech (strL "100% + 5 = 105") ∧
    '=' ∉ clean_text_for_speech (strL "100% + 5 = 105") := by
  decide

/-! ### Lemmas about the translation and configuration adapters -/
theorem translate_if_needed_nil (tr : List Char → Except (List Char) (List Char))
    (code : Option (List Char)) (name : List Char) :
    translate_if_needed tr [] code name = [] := by
  unfold translate_if_needed
  split
  · rfl
  · rw [if_pos rfl]

theorem transLoop_calls_pos (tr : List Char → Except (List Char) (List Char))
    (n : Nat) {l : List Char} (h : l ≠ []) : 1 ≤ (transLoop tr (n + 1) l).2 := by
  obtain ⟨c, cs, rfl⟩ : ∃ c cs, l = c :: cs := by
    cases l with
    | nil => exact absurd rfl h
    | cons c cs => exact ⟨c, cs, rfl⟩
  show 1 ≤ (transLoop tr (n + 1) (c :: cs)).2
  simp only [transLoop]
  cases htr : tr (List.take 4500 (c :: cs)) with
  | error e => simp
  | ok t =>
    cases hr : (transLoop tr n (List.drop 4500 (c :: cs))).1 <;> simp

/-- On a service exception anywhere in the chunk loop, the original text is
returned unchanged. -/
theorem translate_error_passthrough (tr : List Char → Except (List Char) (List Char))
    (text : List Char) (code : Option (List Char)) (name e : List Char)
    (h : (transLoop tr text.length text).1 = Except.error e) :
    translate_if_needed tr text code name = text := by
  unfold translate_if_needed
  split
  · rfl
  · by_cases ht : text = []
    · subst ht
      simp only [transLoop] at h
      cases h
    · rw [if_neg ht, h]

/-! ### Claims C2, C4, C6 -/

/-- C2 counterexample: `'en'` is among the enumerated non-None translation
target codes, yet for the non-empty text `"hi"` the adapter passes the
input through unchanged and never invokes the external service (the
translator oracle would have produced `"X"`). -/
theorem C2_counterexample :
    translate_if_needed (fun _ => Except.ok (strL "X")) (strL "hi") (some enCode)
      (strL "English") = strL "hi" ∧
    translate_calls (fun _ => Except.ok (strL "X")) (strL "hi") (some enCode)
      (strL "English") = 0 := by
  constructor
  · rfl
  · rfl

/-- C2 (amended): the adapter passes the input through with no service
call exactly on the no-translation sentinels — `None`, the falsy empty
code, and `"en"` — and for every non-empty text and every other enumerated
target code (`te`, `hi`, `es`, `fr`, `de`) it invokes the external service
through the chunked translation path at least once. -/
theorem C2_amended_translate_passthrough :
    (∀ tr text name code,
       (code = none ∨ code = some [] ∨ code = some enCode) →
       translate_if_needed tr text code name = text ∧
       translate_calls tr text code name = 0) ∧
    (∀ tr text name code,
       code ∈ [strL "te", strL "hi", strL "es", strL "fr", strL "de"] →
       text ≠ [] → 1 ≤ translate_calls tr text (some code) name) := by
  constructor
  · intro tr text name code h
    constructor
    · unfold translate_if_needed
      rw [if_pos h]
    · unfold translate_calls
      rw [if_pos h]
  · intro tr text name code hc ht
    have hs : ¬ (some code = none ∨ some code = some ([] : List Char) ∨
        some code = some enCode) := by
      simp only [List.mem_cons, List.not_mem_nil, or_false] at hc
      rcases hc with rfl|rfl|rfl|rfl|rfl <;> decide
    unfold translate_calls
    rw [if_neg hs, if_neg ht]
    obtain ⟨c, cs, rfl⟩ : ∃ c cs, text = c :: cs := by
      cases text with
      | nil => exact absurd rfl ht
      | cons c cs => exact ⟨c, cs, rfl⟩
    exact transLoop_calls_pos tr cs.length (by simp)

/-- C2 amended witness: with the identity translator, code `None` passes
`"hi"` through with 0 calls, and code `"te"` on `"hi"` makes a call. -/
theorem C2_amended_translate_passthrough_witness :
    (translate_if_needed (fun c => Except.ok c) (strL "hi") none (strL "n") = strL "hi" ∧
     translate_calls (fun c => Except.ok c) (strL "hi") none (strL "n") = 0) ∧
    1 ≤ translate_calls (fun c => Except.ok c) (strL "hi") (some (strL "te")) (strL "Telugu") :=
  ⟨C2_amended_translate_passthrough.1 _ _ _ none (Or.inl rfl),
   C2_amended_translate_passthrough.2 _ _ _ (strL "te") (by decide) (by decide)⟩

/-- C4 counterexample: after one failed verification with the key `"k"`,
a second `configure_gemini` call with the same unchanged key performs a
network configuration attempt again — the session holds no failure memo. -/
theorem C4_counterexample :
    (configure_gemini keyBase oFailNet sBase).attempted = true ∧
    (configure_gemini keyBase oFailNet sBase).s.api_key_configured = false ∧
    (configure_gemini keyBase oFailNet ((configure_gemini keyBase oFailNet sBase).s)).attempted = true := by
  refine ⟨rfl, rfl, rfl⟩

/-- C4 (amended): `configure_gemini` attempts network configuration on a
call exactly when no successfully configured model is cached and the key
is present, non-empty and not the placeholder — in particular it does
re-attempt after an earlier failed verification with an unchanged key;
only the missing/placeholder-key check and the success cache suppress
attempts. -/
theorem C4_amended_configure_reattempts (key : Option (List Char)) (o : Oracles)
    (s : Session) :
    (configure_gemini key o s).attempted = true ↔
      (¬ (s.gemini_model.isSome ∧ s.api_key_configured = true) ∧
       ¬ (key = none ∨ key = some [] ∨ key = some placeholderKey)) := by
  unfold configure_gemini
  by_cases h1 : s.gemini_model.isSome ∧ s.api_key_configured = true
  · rw [if_pos h1]
    simp [h1]
  · rw [if_neg h1]
    by_cases h2 : key = none ∨ key = some [] ∨ key = some placeholderKey
    · rw [if_pos h2]
      simp [h1, h2]
    · rw [if_neg h2]
      by_cases h3 : o.net_ok <;> simp [h1, h2, h3]

/-! ### Lemmas about the orchestrator -/
theorem process_turn_eq_of_ready (key : Option (List Char)) (o : Oracles)
    (s : Session) (a : ActionTrigger) (h1 : s.processing = true)
    (h2 : s.action_trigger = some a) (h3 : s.api_key_configured = true) :
    process_turn key o s =
      { try_body key o a s with processing := false, action_trigger := none } := by
  unfold process_turn
  rw [if_pos h1, h2]
  simp [h3]

theorem process_turn_eq_not_ready (key : Option (List Char)) (o : Oracles)
    (s : Session) (a : ActionTrigger) (h1 : s.processing = true)
    (h2 : s.action_trigger = some a) (h3 : ¬ s.api_key_configured = true) :
    process_turn key o s = { s with processing := false, action_trigger := none } := by
  unfold process_turn
  rw [if_pos h1, h2]
  simp [h3]

theorem configure_gemini_fields (key : Option (List Char)) (o : Oracles) (s : Session) :
    (configure_gemini key o s).s.last_explanation = s.last_explanation ∧
    (configure_gemini key o s).s.current_text_to_speak = s.current_text_to_speak ∧
    (configure_gemini key o s).s.current_audio_data = s.current_audio_data ∧
    (configure_gemini key o s).s.translate_lang_code = s.translate_lang_code ∧
    (configure_gemini key o s).s.translate_lang_name = s.translate_lang_name ∧
    (configure_gemini key o s).s.tts_lang_code = s.tts_lang_code := by
  unfold configure_gemini
  split
  · exact ⟨rfl, rfl, rfl, rfl, rfl, rfl⟩
  · split
    · exact ⟨rfl, rfl, rfl, rfl, rfl, rfl⟩
    · split
      · exact ⟨rfl, rfl, rfl, rfl, rfl, rfl⟩
      · exact ⟨rfl, rfl, rfl, rfl, rfl, rfl⟩

/-- Every branch of the adapter returns the session produced by
`configure_gemini`. -/
theorem ggr_snd (key : Option (List Char)) (o : Oracles) (p : Prompt)
    (ib : Option (List Nat)) (ti : Option (List Char)) (s : Session) :
    (get_gemini_response key o p ib ti s).2 = (configure_gemini key o s).s := by
  unfold get_gemini_response
  simp only []
  cases hm : (configure_gemini key o s).model with
  | none => rfl
  | some m =>
    cases ib with
    | none => rfl
    | some img =>
      by_cases hio : o.img_open_ok = true
      · rw [if_pos hio]
      · rw [if_neg hio]

theorem get_gemini_response_fields (key : Option (List Char)) (o : Oracles)
    (p : Prompt) (ib : Option (List Nat)) (ti : Option (List Char)) (s : Session) :
    (get_gemini_response key o p ib ti s).2.last_explanation = s.last_explanation ∧
    (get_gemini_response key o p ib ti s).2.translate_lang_code = s.translate_lang_code ∧
    (get_gemini_response key o p ib ti s).2.translate_lang_name = s.translate_lang_name ∧
    (get_gemini_response key o p ib ti s).2.tts_lang_code = s.tts_lang_code := by
  have h := configure_gemini_fields key o s
  rw [ggr_snd]
  exact ⟨h.1, h.2.2.2.1, h.2.2.2.2.1, h.2.2.2.2.2⟩

theorem audio_stage_last (o : Oracles) (ft : List Char) (s : Session) :
    (audio_stage o ft s).last_explanation = s.last_explanation := by
  unfold audio_stage
  split
  · simp only []
    split
    · rfl
    · rfl
  · split
    · rfl
    · rfl

/-- When the model is cached from a successful configuration, the adapter
does not touch the session and returns the stripped service text on a
text/no-payload call with outcome `ok`. -/
theorem ggr_cached_ok (key : Option (List Char)) (o : Oracles) (p : Prompt)
    (ti : Option (List Char)) (s : Session) (m : Nat) (t : List Char)
    (hm : s.gemini_model = some m) (hc : s.api_key_configured = true)
    (hg : o.gen = GenOutcome.ok t) :
    get_gemini_response key o p none ti s = (pyStrip t, s) := by
  unfold get_gemini_response configure_gemini
  rw [if_pos ⟨by simp [hm], hc⟩]
  simp only [hm]
  show (gemini_generate o, s) = (pyStrip t, s)
  rw [gemini_generate, hg]

/-- Same as `ggr_cached_ok` for an image payload that decodes. -/
theorem ggr_cached_ok_img (key : Option (List Char)) (o : Oracles) (p : Prompt)
    (img : List Nat) (s : Session) (m : Nat) (t : List Char)
    (hm : s.gemini_model = some m) (hc : s.api_key_configured = true)
    (hio : o.img_open_ok = true) (hg : o.gen = GenOutcome.ok t) :
    get_gemini_response key o p (some img) none s = (pyStrip t, s) := by
  unfold get_gemini_response configure_gemini
  rw [if_pos ⟨by simp [hm], hc⟩]
  simp only [hm]
  show (if o.img_open_ok = true then (gemini_generate o, s)
        else (strL "Error: Could not read image data.", s)) = (pyStrip t, s)
  rw [if_pos hio, gemini_generate, hg]

/-- Audio-stage outcome on non-empty, marker-free text: the audio field
holds exactly what the speech adapter returned, and the displayed text is
the input text, possibly with the audio-failure note appended. -/
theorem audio_stage_fields (o : Oracles) (ft : List Char) (s : Session)
    (hft : ft ≠ []) (hfe : hasSub errMark ft = false) :
    (audio_stage o ft s).current_audio_data =
      generate_speech o.speech_ok o.speech_bytes ft s.tts_lang_code ∧
    ((audio_stage o ft s).current_text_to_speak = ft ∨
     (audio_stage o ft s).current_text_to_speak = ft ++ audioFailNote) := by
  unfold audio_stage
  rw [if_pos ⟨hft, hfe⟩]
  simp only []
  split
  · exact ⟨rfl, Or.inr rfl⟩
  · exact ⟨rfl, Or.inl rfl⟩

/-- Audio-stage outcome on text that carries the error marker: the text is
stored verbatim and no audio is attached. -/
theorem audio_stage_err (o : Oracles) (ft : List Char) (s : Session)
    (hfe : hasSub errMark ft = true) :
    (audio_stage o ft s).current_audio_data = none ∧
    (audio_stage o ft s).current_text_to_speak = ft := by
  have hft : ft ≠ [] := hasSub_ne_nil (by decide) hfe
  unfold audio_stage
  rw [if_neg (by simp [hfe]), if_pos hft]
  exact ⟨rfl, rfl⟩

/-- Audio-stage outcome on empty text: the no-content placeholder, no
audio. -/
theorem audio_stage_nil (o : Oracles) (s : Session) :
    (audio_stage o [] s).current_audio_data = none ∧
    (audio_stage o [] s).current_text_to_speak = noContentMsg := by
  unfold audio_stage
  rw [if_neg (by simp), if_neg (by simp)]
  exact ⟨rfl, rfl⟩

theorem try_body_read_text_eq (key : Option (List Char)) (o : Oracles) (s : Session)
    (h4 : ¬ s.pasted_text_area = []) :
    try_body key o ActionTrigger.read_text s =
      audio_stage o
        (translate_if_needed o.tr (collapseWs s.pasted_text_area)
          s.translate_lang_code s.translate_lang_name)
        { s with last_explanation := [] } := by
  simp only [try_body]
  rw [if_neg h4]

theorem try_body_explain_text_eq (key : Option (List Char)) (o : Oracles) (s : Session)
    (h4 : ¬ s.pasted_text_area = []) :
    try_body key o ActionTrigger.explain_text s =
      audio_stage o
        (gemini_branch o ActionTrigger.explain_text
          (get_gemini_response key o .explainBase none (some s.pasted_text_area) s).1
          (get_gemini_response key o .explainBase none (some s.pasted_text_area) s).2).1
        (gemini_branch o ActionTrigger.explain_text
          (get_gemini_response key o .explainBase none (some s.pasted_text_area) s).1
          (get_gemini_response key o .explainBase none (some s.pasted_text_area) s).2).2 := by
  simp only [try_body]
  rw [if_neg h4]

theorem try_body_follow_up_eq (key : Option (List Char)) (o : Oracles) (s : Session)
    (h4 : ¬ s.feedback_input = []) (h5 : ¬ s.last_explanation = []) :
    try_body key o ActionTrigger.follow_up s =
      audio_stage o
        (gemini_branch o ActionTrigger.follow_up
          (get_gemini_response key o (.followUp s.last_explanation s.feedback_input)
            none none s).1
          (get_gemini_response key o (.followUp s.last_explanation s.feedback_input)
            none none s).2).1
        (gemini_branch o ActionTrigger.follow_up
          (get_gemini_response key o (.followUp s.last_explanation s.feedback_input)
            none none s).1
          (get_gemini_response key o (.followUp s.last_explanation s.feedback_input)
            none none s).2).2 := by
  simp only [try_body]
  rw [if_neg h4, if_neg h5]

theorem try_body_explain_image_eq (key : Option (List Char)) (o : Oracles) (s : Session)
    (img : List Nat) (hi : s.last_uploaded_image = some img) :
    try_body key o ActionTrigger.explain_image s =
      audio_stage o
        (gemini_branch o ActionTrigger.explain_image
          (get_gemini_response key o .explainBase (some img) none s).1
          (get_gemini_response key o .explainBase (some img) none s).2).1
        (gemini_branch o ActionTrigger.explain_image
          (get_gemini_response key o .explainBase (some img) none s).1
          (get_gemini_response key o .explainBase (some img) none s).2).2 := by
  simp only [try_body, hi]

theorem try_body_read_image_eq (key : Option (List Char)) (o : Oracles) (s : Session)
    (img : List Nat) (hi : s.last_uploaded_image = some img) :
    try_body key o ActionTrigger.read_image s =
      audio_stage o
        (gemini_branch o ActionTrigger.read_image
          (get_gemini_response key o .readImage (some img) none s).1
          (get_gemini_response key o .readImage (some img) none s).2).1
        (gemini_branch o ActionTrigger.read_image
          (get_gemini_response key o .readImage (some img) none s).1
          (get_gemini_response key o .readImage (some img) none s).2).2 := by
  simp only [try_body, hi]

/-- The Gemini-result branch on a success string (no error marker) for an
explain-class action: the sanitized text becomes the new context and the
final text is its translation. -/
theorem gemini_branch_explain (o : Oracles) (a : ActionTrigger) (r : List Char)
    (s : Session) (he : hasSub errMark r = false) (ha : isExplainAction a = true) :
    gemini_branch o a r s =
      (translate_if_needed o.tr (clean_text_for_speech r)
         s.translate_lang_code s.translate_lang_name,
       { s with last_explanation := clean_text_for_speech r }) := by
  unfold gemini_branch
  rw [if_neg (by simp [he]), if_pos ha]

/-- The Gemini-result branch on an error-marked string: the error text is
passed through and the session is untouched. -/
theorem gemini_branch_err (o : Oracles) (a : ActionTrigger) (r : List Char)
    (s : Session) (he : hasSub errMark r = true) :
    gemini_branch o a r s = (r, s) := by
  unfold gemini_branch
  rw [if_pos he]

/-! ### Claims C5, C9 -/

/-- C5: every turn that starts with `processing` true — on every branch:
success, AI error, missing input (guard exception), API not ready, or a
lost trigger — ends with `processing` false and `actionTrigger` none. -/
theorem C5_processing_always_reset (key : Option (List Char)) (o : Oracles)
    (s : Session) (h : s.processing = true) :
    (process_turn key o s).processing = false ∧
    (process_turn key o s).action_trigger = none := by
  cases ha : s.action_trigger with
  | none =>
    unfold process_turn
    rw [if_pos h, ha]
    exact ⟨rfl, rfl⟩
  | some a =>
    by_cases hr : s.api_key_configured = true
    · rw [process_turn_eq_of_ready key o s a h ha hr]
      exact ⟨rfl, rfl⟩
    · rw [process_turn_eq_not_ready key o s a h ha hr]
      exact ⟨rfl, rfl⟩

/-- C5 witness: a concrete read-text turn resets the flags. -/
theorem C5_processing_always_reset_witness :
    sReadText.processing = true ∧
    ((process_turn keyBase oBase sReadText).processing = false ∧
     (process_turn keyBase oBase sReadText).action_trigger = none) :=
  ⟨rfl, C5_processing_always_reset keyBase oBase sReadText rfl⟩

/-- C9: a read-text turn whose pasted text — after whitespace collapse and
(possibly passthrough) translation — contains the substring `"Error:"`
anywhere stores that text with no audio, although no AI call was made. -/
theorem C9_read_text_error_marker_skips_audio (key : Option (List Char))
    (o : Oracles) (s : Session) (h1 : s.processing = true)
    (h2 : s.action_trigger = some ActionTrigger.read_text)
    (h3 : s.api_key_configured = true) (h4 : ¬ s.pasted_text_area = [])
    (h5 : hasSub errMark
      (translate_if_needed o.tr (collapseWs s.pasted_text_area)
        s.translate_lang_code s.translate_lang_name) = true) :
    (process_turn key o s).current_audio_data = none ∧
    (process_turn key o s).current_text_to_speak =
      translate_if_needed o.tr (collapseWs s.pasted_text_area)
        s.translate_lang_code s.translate_lang_name := by
  rw [process_turn_eq_of_ready key o s ActionTrigger.read_text h1 h2 h3]
  show (try_body key o ActionTrigger.read_text s).current_audio_data = none ∧
    (try_body key o ActionTrigger.read_text s).current_text_to_speak = _
  rw [try_body_read_text_eq key o s h4]
  exact audio_stage_err o _ _ h5

/-- C9 witness: pasting `"Error: boom"` and reading it stores the text
with no audio. -/
theorem C9_read_text_error_marker_skips_audio_witness :
    (sReadErrText.processing = true ∧
     sReadErrText.action_trigger = some ActionTrigger.read_text ∧
     hasSub errMark
       (translate_if_needed oBase.tr (collapseWs sReadErrText.pasted_text_area)
         sReadErrText.translate_lang_code sReadErrText.translate_lang_name) = true) ∧
    ((process_turn keyBase oBase sReadErrText).current_audio_data = none ∧
     (process_turn keyBase oBase sReadErrText).current_text_to_speak =
       translate_if_needed oBase.tr (collapseWs sReadErrText.pasted_text_area)
         sReadErrText.translate_lang_code sReadErrText.translate_lang_name) :=
  ⟨⟨rfl, rfl, by decide⟩,
   C9_read_text_error_marker_skips_audio keyBase oBase sReadErrText rfl rfl rfl
     (by decide) (by decide)⟩

/-! ### Claim C3 -/

/-- C3 counterexample: a ReadImage turn in which the AI call returns an
error string leaves `lastExplanation` at its previous non-empty value
`"old"` — reading does not clear the follow-up context on the error
branch. -/
theorem C3_counterexample :
    sReadImgStale.processing = true ∧
    sReadImgStale.action_trigger = some ActionTrigger.read_image ∧
    (process_turn keyBase oGenRaise sReadImgStale).last_explanation = strL "old" ∧
    (process_turn keyBase oGenRaise sReadImgStale).last_explanation ≠ [] := by
  refine ⟨rfl, rfl, by decide, by decide⟩

/-- C3 (amended): after a ReadImage or ReadText turn, `lastExplanation` is
either empty or exactly its value from before the turn: it is cleared on
the paths that reach the per-action clearing assignment (ReadText past its
guard; ReadImage on AI success), retained unchanged on error, guard and
not-ready paths, and never set to a non-empty value — in particular a read
turn starting with empty context ends with empty context. -/
theorem C3_amended_read_clears_or_keeps (key : Option (List Char)) (o : Oracles)
    (s : Session) (a : ActionTrigger) (h1 : s.processing = true)
    (h2 : s.action_trigger = some a)
    (ha : a = ActionTrigger.read_image ∨ a = ActionTrigger.read_text) :
    (process_turn key o s).last_explanation = [] ∨
    (process_turn key o s).last_explanation = s.last_explanation := by
  by_cases h3 : s.api_key_configured = true
  · rw [process_turn_eq_of_ready key o s a h1 h2 h3]
    show (try_body key o a s).last_explanation = [] ∨
      (try_body key o a s).last_explanation = s.last_explanation
    rcases ha with rfl | rfl
    · cases hi : s.last_uploaded_image with
      | none =>
        right
        simp only [try_body, hi]
        rfl
      | some img =>
        rw [try_body_read_image_eq key o s img hi]
        by_cases he : hasSub errMark
            (get_gemini_response key o .readImage (some img) none s).1 = true
        · rw [gemini_branch_err o _ _ _ he]
          right
          rw [audio_stage_last]
          exact (get_gemini_response_fields key o _ _ _ s).1
        · left
          unfold gemini_branch
          rw [if_neg he, if_neg (by decide), if_pos rfl]
          rw [audio_stage_last]
    · by_cases hp : s.pasted_text_area = []
      · right
        simp only [try_body]
        rw [if_pos hp]
        rfl
      · left
        rw [try_body_read_text_eq key o s hp, audio_stage_last]
  · rw [process_turn_eq_not_ready key o s a h1 h2 h3]
    right
    rfl

/-- C3 amended witness: a concrete read-text turn with stale context ends
with `lastExplanation` empty or unchanged (here: cleared). -/
theorem C3_amended_read_clears_or_keeps_witness :
    (sReadTextStale.processing = true ∧
     sReadTextStale.action_trigger = some ActionTrigger.read_text) ∧
    ((process_turn keyBase oBase sReadTextStale).last_explanation = [] ∨
     (process_turn keyBase oBase sReadTextStale).last_explanation =
       sReadTextStale.last_explanation) :=
  ⟨⟨rfl, rfl⟩,
   C3_amended_read_clears_or_keeps keyBase oBase sReadTextStale
     ActionTrigger.read_text rfl rfl (Or.inr rfl)⟩

/-! ### Claim C10 -/

/-- C10: on an ExplainImage, ExplainText or FollowUp turn in which the AI
returns a success string (no error marker anywhere) that sanitizes to the
empty string, `lastExplanation` is overwritten with the empty string —
destroying any stored context — and the no-content placeholder is shown
with no audio. -/
theorem C10_empty_sanitized_success (key : Option (List Char)) (o : Oracles)
    (s : Session) (a : ActionTrigger) (m : Nat) (t : List Char)
    (h1 : s.processing = true) (h2 : s.action_trigger = some a)
    (h3 : s.api_key_configured = true) (hm : s.gemini_model = some m)
    (hg : o.gen = GenOutcome.ok t)
    (he : hasSub errMark (pyStrip t) = false)
    (hc : clean_text_for_speech (pyStrip t) = [])
    (hguard :
      (a = ActionTrigger.explain_image ∧
        (∃ img, s.last_uploaded_image = some img) ∧ o.img_open_ok = true) ∨
      (a = ActionTrigger.explain_text ∧ ¬ s.pasted_text_area = []) ∨
      (a = ActionTrigger.follow_up ∧ ¬ s.feedback_input = [] ∧
        ¬ s.last_explanation = [])) :
    (process_turn key o s).last_explanation = [] ∧
    (process_turn key o s).current_text_to_speak = noContentMsg ∧
    (process_turn key o s).current_audio_data = none := by
  rw [process_turn_eq_of_ready key o s a h1 h2 h3]
  show (try_body key o a s).last_explanation = [] ∧
    (try_body key o a s).current_text_to_speak = noContentMsg ∧
    (try_body key o a s).current_audio_data = none
  have hbranch : ∀ p : Prompt, ∀ a', isExplainAction a' = true →
      (audio_stage o
        (gemini_branch o a' (pyStrip t) s).1
        (gemini_branch o a' (pyStrip t) s).2).last_explanation = [] ∧
      (audio_stage o
        (gemini_branch o a' (pyStrip t) s).1
        (gemini_branch o a' (pyStrip t) s).2).current_text_to_speak = noContentMsg ∧
      (audio_stage o
        (gemini_branch o a' (pyStrip t) s).1
        (gemini_branch o a' (pyStrip t) s).2).current_audio_data = none := by
    intro _ a' ha'
    rw [gemini_branch_explain o a' (pyStrip t) s he ha']
    simp only [hc, translate_if_needed_nil]
    have hn := audio_stage_nil o { s with last_explanation := ([] : List Char) }
    refine ⟨?_, hn.2, hn.1⟩
    rw [audio_stage_last]
  rcases hguard with ⟨rfl, ⟨img, hi⟩, hio⟩ | ⟨rfl, hp⟩ | ⟨rfl, hf, hl⟩
  · rw [try_body_explain_image_eq key o s img hi,
      ggr_cached_ok_img key o .explainBase img s m t hm h3 hio hg]
    exact hbranch .explainBase ActionTrigger.explain_image (by decide)
  · rw [try_body_explain_text_eq key o s hp,
      ggr_cached_ok key o .explainBase (some s.pasted_text_area) s m t hm h3 hg]
    exact hbranch .explainBase ActionTrigger.explain_text (by decide)
  · rw [try_body_follow_up_eq key o s hf hl,
      ggr_cached_ok key o (.followUp s.last_explanation s.feedback_input) none s m t
        hm h3 hg]
    exact hbranch .explainBase ActionTrigger.follow_up (by decide)

/-- C10 witness: the concrete turn clears the stale context and shows the
placeholder with no audio. -/
theorem C10_empty_sanitized_success_witness :
    (sExplainEmpty.processing = true ∧
     clean_text_for_speech (pyStrip (strL "( )")) = []) ∧
    ((process_turn keyBase oGenParens sExplainEmpty).last_explanation = [] ∧
     (process_turn keyBase oGenParens sExplainEmpty).current_text_to_speak = noContentMsg ∧
     (process_turn keyBase oGenParens sExplainEmpty).current_audio_data = none) :=
  ⟨⟨rfl, by decide⟩,
   C10_empty_sanitized_success keyBase oGenParens sExplainEmpty
     ActionTrigger.explain_text 1 (strL "( )") rfl rfl rfl rfl rfl (by decide)
     (by decide) (Or.inr (Or.inl ⟨rfl, by decide⟩))⟩

/-! ### Claim C1 -/

/-- Adapter classification: every result of `get_gemini_response` is
either a string that begins with the error marker, or exactly the stripped
text of a successful generation — the adapter is total and converts every
failure into an error string. -/
theorem get_gemini_response_classify (key : Option (List Char)) (o : Oracles)
    (p : Prompt) (ib : Option (List Nat)) (ti : Option (List Char)) (s : Session) :
    isPre errMark (get_gemini_response key o p ib ti s).1 = true ∨
    ∃ t, o.gen = GenOutcome.ok t ∧
      (get_gemini_response key o p ib ti s).1 = pyStrip t := by
  have hgen : isPre errMark (gemini_generate o) = true ∨
      ∃ t, o.gen = GenOutcome.ok t ∧ gemini_generate o = pyStrip t := by
    unfold gemini_generate
    cases hg : o.gen with
    | raiseErr e => left; exact isPre_append_left (by decide) e
    | blocked reason ratings =>
      left
      exact isPre_append_left (isPre_append_left (isPre_append_left (by decide) _) _) _
    | emptyNoFeedback => left; decide
    | ok t => right; exact ⟨t, rfl, rfl⟩
  unfold get_gemini_response
  simp only []
  cases hm : (configure_gemini key o s).model with
  | none =>
    left
    show isPre errMark
      (strL "Error: Gemini model failed to configure. Check API Key and logs.") = true
    decide
  | some m =>
    cases ib with
    | none => exact hgen
    | some img =>
      by_cases hio : o.img_open_ok = true
      · simp only [if_pos hio]
        exact hgen
      · simp only [if_neg hio]
        left
        show isPre errMark (strL "Error: Could not read image data.") = true
        decide

/-- C1 counterexample: the AI result `"A Error: B"` does not begin with
the error marker, yet the orchestrator does not treat the turn as a
success: it takes the error branch (containment test), leaves
`lastExplanation` untouched instead of storing the non-empty sanitized
text, skips sanitation/translation and attaches no audio. -/
theorem C1_counterexample :
    isPre errMark (strL "A Error: B") = false ∧
    clean_text_for_speech (strL "A Error: B") ≠ [] ∧
    (process_turn keyBase oGenMidErr sExplainMid).last_explanation = [] ∧
    (process_turn keyBase oGenMidErr sExplainMid).current_audio_data = none ∧
    (process_turn keyBase oGenMidErr sExplainMid).current_text_to_speak =
      strL "A Error: B" := by
  refine ⟨by decide, by decide, by decide, by decide, by decide⟩

/-- C1 (amended): the adapter never raises — every result is either the
stripped success text or a string that BEGINS with `"Error:"` — but the
orchestrator detects failure by CONTAINMENT, not by prefix: it treats a
turn as a success exactly when `"Error:"` occurs nowhere in the result,
in which case it sanitizes the text into `lastExplanation`, translates it,
and attempts audio synthesis on the translated text. -/
theorem C1_amended_error_string_containment :
    (∀ (key : Option (List Char)) (o : Oracles) (p : Prompt)
       (ib : Option (List Nat)) (ti : Option (List Char)) (s : Session),
       isPre errMark (get_gemini_response key o p ib ti s).1 = true ∨
       ∃ t, o.gen = GenOutcome.ok t ∧
         (get_gemini_response key o p ib ti s).1 = pyStrip t) ∧
    (∀ (key : Option (List Char)) (o : Oracles) (s : Session)
       (a : ActionTrigger) (m : Nat) (t : List Char),
       s.processing = true → s.action_trigger = some a →
       s.api_key_configured = true → s.gemini_model = some m →
       o.gen = GenOutcome.ok t →
       hasSub errMark (pyStrip t) = false →
       ((a = ActionTrigger.explain_image ∧
          (∃ img, s.last_uploaded_image = some img) ∧ o.img_open_ok = true) ∨
        (a = ActionTrigger.explain_text ∧ ¬ s.pasted_text_area = []) ∨
        (a = ActionTrigger.follow_up ∧ ¬ s.feedback_input = [] ∧
          ¬ s.last_explanation = [])) →
       translate_if_needed o.tr (clean_text_for_speech (pyStrip t))
         s.translate_lang_code s.translate_lang_name ≠ [] →
       hasSub errMark (translate_if_needed o.tr (clean_text_for_speech (pyStrip t))
         s.translate_lang_code s.translate_lang_name) = false →
       (process_turn key o s).last_explanation = clean_text_for_speech (pyStrip t) ∧
       (process_turn key o s).current_audio_data =
         generate_speech o.speech_ok o.speech_bytes
           (translate_if_needed o.tr (clean_text_for_speech (pyStrip t))
             s.translate_lang_code s.translate_lang_name) s.tts_lang_code ∧
       ((process_turn key o s).current_text_to_speak =
          translate_if_needed o.tr (clean_text_for_speech (pyStrip t))
            s.translate_lang_code s.translate_lang_name ∨
        (process_turn key o s).current_text_to_speak =
          translate_if_needed o.tr (clean_text_for_speech (pyStrip t))
            s.translate_lang_code s.translate_lang_name ++ audioFailNote)) := by
  constructor
  · exact get_gemini_response_classify
  · intro key o s a m t h1 h2 h3 hm hg he hguard hft hfe
    rw [process_turn_eq_of_ready key o s a h1 h2 h3]
    show (try_body key o a s).last_explanation = _ ∧
      (try_body key o a s).current_audio_data = _ ∧
      ((try_body key o a s).current_text_to_speak = _ ∨
       (try_body key o a s).current_text_to_speak = _)
    have hbranch : ∀ a', isExplainAction a' = true →
        (audio_stage o (gemini_branch o a' (pyStrip t) s).1
          (gemini_branch o a' (pyStrip t) s).2).last_explanation =
            clean_text_for_speech (pyStrip t) ∧
        (audio_stage o (gemini_branch o a' (pyStrip t) s).1
          (gemini_branch o a' (pyStrip t) s).2).current_audio_data =
          generate_speech o.speech_ok o.speech_bytes
            (translate_if_needed o.tr (clean_text_for_speech (pyStrip t))
              s.translate_lang_code s.translate_lang_name) s.tts_lang_code ∧
        ((audio_stage o (gemini_branch o a' (pyStrip t) s).1
           (gemini_branch o a' (pyStrip t) s).2).current_text_to_speak =
            translate_if_needed o.tr (clean_text_for_speech (pyStrip t))
              s.translate_lang_code s.translate_lang_name ∨
         (audio_stage o (gemini_branch o a' (pyStrip t) s).1
           (gemini_branch o a' (pyStrip t) s).2).current_text_to_speak =
            translate_if_needed o.tr (clean_text_for_speech (pyStrip t))
              s.translate_lang_code s.translate_lang_name ++ audioFailNote) := by
      intro a' ha'
      rw [gemini_branch_explain o a' (pyStrip t) s he ha']
      have hfields := audio_stage_fields o
        (translate_if_needed o.tr (clean_text_for_speech (pyStrip t))
          s.translate_lang_code s.translate_lang_name)
        { s with last_explanation := clean_text_for_speech (pyStrip t) } hft hfe
      refine ⟨?_, hfields.1, hfields.2⟩
      rw [audio_stage_last]
    rcases hguard with ⟨rfl, ⟨img, hi⟩, hio⟩ | ⟨rfl, hp⟩ | ⟨rfl, hf, hl⟩
    · rw [try_body_explain_image_eq key o s img hi,
        ggr_cached_ok_img key o .explainBase img s m t hm h3 hio hg]
      exact hbranch ActionTrigger.explain_image (by decide)
    · rw [try_body_explain_text_eq key o s hp,
        ggr_cached_ok key o .explainBase (some s.pasted_text_area) s m t hm h3 hg]
      exact hbranch ActionTrigger.explain_text (by decide)
    · rw [try_body_follow_up_eq key o s hf hl,
        ggr_cached_ok key o (.followUp s.last_explanation s.feedback_input) none s m t
          hm h3 hg]
      exact hbranch ActionTrigger.follow_up (by decide)

/-- C1 amended witness: a concrete marker-free success turn stores the
sanitized text as context and attaches the synthesized audio. -/
theorem C1_amended_error_string_containment_witness :
    (isPre errMark (get_gemini_response keyBase oGenHello .explainBase none
        (some (strL "x")) sExplainMid).1 = true ∨
     ∃ t, oGenHello.gen = GenOutcome.ok t ∧
       (get_gemini_response keyBase oGenHello .explainBase none
         (some (strL "x")) sExplainMid).1 = pyStrip t) ∧
    (hasSub errMark (pyStrip (strL "Hello world")) = false ∧
     ((process_turn keyBase oGenHello sExplainMid).last_explanation =
        clean_text_for_speech (pyStrip (strL "Hello world")) ∧
      (process_turn keyBase oGenHello sExplainMid).current_audio_data =
        generate_speech oGenHello.speech_ok oGenHello.speech_bytes
          (translate_if_needed oGenHello.tr
            (clean_text_for_speech (pyStrip (strL "Hello world")))
            sExplainMid.translate_lang_code sExplainMid.translate_lang_name)
          sExplainMid.tts_lang_code ∧
      ((process_turn keyBase oGenHello sExplainMid).current_text_to_speak =
         translate_if_needed oGenHello.tr
           (clean_text_for_speech (pyStrip (strL "Hello world")))
           sExplainMid.translate_lang_code sExplainMid.translate_lang_name ∨
       (process_turn keyBase oGenHello sExplainMid).current_text_to_speak =
         translate_if_needed oGenHello.tr
           (clean_text_for_speech (pyStrip (strL "Hello world")))
           sExplainMid.translate_lang_code sExplainMid.translate_lang_name ++
             audioFailNote))) :=
  ⟨C1_amended_error_string_containment.1 keyBase oGenHello .explainBase none
     (some (strL "x")) sExplainMid,
   by decide,
   C1_amended_error_string_containment.2 keyBase oGenHello sExplainMid
     ActionTrigger.explain_text 1 (strL "Hello world") rfl rfl rfl rfl rfl
     (by decide) (Or.inr (Or.inl ⟨rfl, by decide⟩)) (by decide) (by decide)⟩

/-! ### Claim C6 -/
theorem audio_stage_success (o : Oracles) (ft : List Char) (s : Session)
    (hft : ft ≠ []) (hfe : hasSub errMark ft = false)
    (hok : o.speech_ok = true) (hb : o.speech_bytes ≠ []) :
    (audio_stage o ft s).current_audio_data = some o.speech_bytes ∧
    (audio_stage o ft s).current_text_to_speak = ft := by
  have hgs : generate_speech o.speech_ok o.speech_bytes ft s.tts_lang_code =
      some o.speech_bytes := by
    unfold generate_speech
    rw [if_neg hft, if_pos hok]
  unfold audio_stage
  rw [if_pos ⟨hft, hfe⟩]
  simp only []
  rw [hgs, if_neg (by simp [hb])]
  exact ⟨rfl, rfl⟩

/-- C6: translation failure is non-fatal: whenever the external service
fails anywhere in the chunk loop (first chunk or mid-way), the adapter
returns the original untranslated input unchanged; and a read-text turn
with a failing translator still proceeds to speech synthesis on the
original (whitespace-collapsed) text. -/
theorem C6_translation_failure_nonfatal :
    (∀ (tr : List Char → Except (List Char) (List Char)) text code name e,
       (transLoop tr text.length text).1 = Except.error e →
       translate_if_needed tr text code name = text) ∧
    (∀ (key : Option (List Char)) (o : Oracles) (s : Session) (e : List Char),
       s.processing = true → s.action_trigger = some ActionTrigger.read_text →
       s.api_key_configured = true → ¬ s.pasted_text_area = [] →
       collapseWs s.pasted_text_area ≠ [] →
       hasSub errMark (collapseWs s.pasted_text_area) = false →
       (transLoop o.tr (collapseWs s.pasted_text_area).length
         (collapseWs s.pasted_text_area)).1 = Except.error e →
       o.speech_ok = true → o.speech_bytes ≠ [] →
       (process_turn key o s).current_text_to_speak = collapseWs s.pasted_text_area ∧
       (process_turn key o s).current_audio_data = some o.speech_bytes) := by
  constructor
  · exact translate_error_passthrough
  · intro key o s e h1 h2 h3 h4 hcw hfe htr hok hb
    rw [process_turn_eq_of_ready key o s ActionTrigger.read_text h1 h2 h3]
    show (try_body key o ActionTrigger.read_text s).current_text_to_speak = _ ∧
      (try_body key o ActionTrigger.read_text s).current_audio_data = _
    rw [try_body_read_text_eq key o s h4]
    rw [translate_error_passthrough o.tr (collapseWs s.pasted_text_area)
      s.translate_lang_code s.translate_lang_name e htr]
    have h := audio_stage_success o (collapseWs s.pasted_text_area)
      { s with last_explanation := [] } hcw hfe hok hb
    exact ⟨h.2, h.1⟩

/-- C6 witness: with a failing translator, `translate_if_needed` returns
the input `"ab"` unchanged, and a concrete Telugu read-text turn still
shows the original text with synthesized audio. -/
theorem C6_translation_failure_nonfatal_witness :
    ((transLoop oTrFail.tr (strL "ab").length (strL "ab")).1 =
       Except.error (strL "boom") ∧
     translate_if_needed oTrFail.tr (strL "ab") (some (strL "te"))
       (strL "Telugu") = strL "ab") ∧
    ((process_turn keyBase oTrFail sReadTextTe).current_text_to_speak =
       collapseWs sReadTextTe.pasted_text_area ∧
     (process_turn keyBase oTrFail sReadTextTe).current_audio_data =
       some oTrFail.speech_bytes) :=
  ⟨⟨rfl,
    C6_translation_failure_nonfatal.1 oTrFail.tr (strL "ab") (some (strL "te"))
      (strL "Telugu") (strL "boom") rfl⟩,
   C6_translation_failure_nonfatal.2 keyBase oTrFail sReadTextTe (strL "boom")
     rfl rfl rfl (by decide) (by decide) (by decide) rfl rfl (by decide)⟩

/-- C4 amended witness: in the default session with the key `"k"` and no
cached model, the characterization yields `attempted = true`. -/
theorem C4_amended_configure_reattempts_witness :
    (¬ (sBase.gemini_model.isSome ∧ sBase.api_key_configured = true) ∧
     ¬ (keyBase = none ∨ keyBase = some [] ∨ keyBase = some placeholderKey)) ∧
    (configure_gemini keyBase oFailNet sBase).attempted = true :=
  ⟨by decide,
   (C4_amended_configure_reattempts keyBase oFailNet sBase).mpr (by decide)⟩
